import Mathlib

/-!
# conAbi: event lookup in receipts and transaction submission

A shallow embedding of `src/conAbi/abi.go` (functions `ParseEvent`,
`FindSingleEvent`, `prepareTransaction`, `Send`, `Deploy`, `PreWithdraw`) and of the
data types of `src/transaction/backend.go` they use.

Conventions of the embedding.

* `common.Address` and `common.Hash` are fixed-width byte arrays compared with `==`;
  they are embedded as natural numbers, the zero value being `0`.
* `*big.Int` is `Option Int`, `none` being the nil pointer; the big integers stored
  inside a `types.Transaction` are never nil and are `Int`.
* `uint64` values are natural numbers; the one place where the source does
  arithmetic on them (`gasLimit += gasLimit / 5`) reduces modulo `2 ^ 64`.
* A Go result pair `(v, err)` whose value is only read when `err == nil` is
  `Except Error v`; a lone `error` result is `Option Error`, `none` being nil.
* The value behind `out interface{}` is threaded explicitly: a function that may
  write through the pointer returns the new value next to its error.
* `transaction.Backend` and `transaction.Signer` are interfaces.  Their methods are
  fields of a record, they act on a state `σ` that the program cannot see, and every
  call made by the program is appended to a trace, which is how "is not called" is
  expressed.
* `lock`, `time.Sleep` and the `context.Context` argument have no counterpart: the
  embedding is sequential and untimed.
-/

namespace ConAbi

abbrev Address := Nat
abbrev Hash := Nat
abbrev Bytes := List Nat
abbrev BigInt := Option Int

/-- The zero value `common.Hash{}`. -/
def zeroHash : Hash := 0

/-- An error value created inside go-ethereum's `abi` package.  Such a value is never
identical to one of the package-level error variables of `conAbi`. -/
abbrev LibError := Nat

/-- Error values.  `ErrTransactionReverted` and `ErrEventNotFound` are the package-level
variables of `abi.go`; `errNoTopic` is the `errors.New("err no topic")` of `ParseEvent`;
`lib` wraps an error made by the `abi` library; `ext` is any error handed back by an
implementation of the `Backend` or `Signer` interface. -/
inductive Error where
  | ErrTransactionReverted
  | ErrEventNotFound
  | errNoTopic
  | lib (e : LibError)
  | ext (code : Nat)
  deriving DecidableEq, Repr

/-- The type `abi.Argument`, reduced to the fields read by `ParseEvent`. -/
structure Argument where
  Name : String
  Indexed : Bool
  deriving DecidableEq, Repr

/-- The type `abi.Event`, reduced to the fields read by this package. -/
structure Event where
  Name : String
  ID : Hash
  Inputs : List Argument
  deriving DecidableEq, Repr

/-- The type `abi.ABI`: the `Events` map, as an association list. -/
structure ABI where
  Events : List (String × Event)
  deriving DecidableEq, Repr

/-- The map read `a.Events[eventName]`: the zero `Event` when the key is absent. -/
def ABI.event (a : ABI) (eventName : String) : Event :=
  match a.Events.lookup eventName with
  | some e => e
  | none => { Name := "", ID := 0, Inputs := [] }

/-- The type `types.Log`, reduced to the fields read by this package. -/
structure Log where
  Address : Address
  Topics : List Hash
  Data : Bytes
  deriving DecidableEq, Repr

/-- The type `types.Receipt`, reduced to the fields read by this package. -/
structure Receipt where
  Status : Nat
  Logs : List Log
  deriving DecidableEq, Repr

/-- The two functions of go-ethereum's `abi` package called by `ParseEvent`.  Both write
through the pointer `c` and return an error of the library. -/
structure AbiLib (Out : Type) where
  UnpackIntoInterface : ABI → Out → String → Bytes → Out × Option LibError
  ParseTopics : Out → List Argument → List Hash → Out × Option LibError

/-- The loop of `ParseEvent` that collects the indexed inputs, in order. -/
def indexedArgs : List Argument → List Argument
  | [] => []
  | arg :: rest => if arg.Indexed then arg :: indexedArgs rest else indexedArgs rest

/-- The function `ParseEvent` of `abi.go`. -/
def ParseEvent {Out : Type} (lib : AbiLib Out) (a : ABI) (eventName : String) (c : Out)
    (e : Log) : Out × Option Error :=
  if e.Topics.length = 0 then
    (c, some Error.errNoTopic)
  else
    let unpacked : Out × Option LibError :=
      if e.Data.length > 0 then lib.UnpackIntoInterface a c eventName e.Data else (c, none)
    match unpacked with
    | (c1, some err) => (c1, some (Error.lib err))
    | (c1, none) =>
      let parsed := lib.ParseTopics c1 (indexedArgs (a.event eventName).Inputs) (e.Topics.drop 1)
      (parsed.1, parsed.2.map Error.lib)

/-- The `for` loop of `FindSingleEvent` over `receipt.Logs`. -/
def findLoop {Out : Type} (lib : AbiLib Out) (a : ABI) (contractAddress : Address)
    (event : Event) (out : Out) : List Log → Out × Option Error
  | [] => (out, some Error.ErrEventNotFound)
  | log :: rest =>
    if log.Address ≠ contractAddress then
      findLoop lib a contractAddress event out rest
    else
      match log.Topics with
      | [] => findLoop lib a contractAddress event out rest
      | topic0 :: _ =>
        if topic0 ≠ event.ID then
          findLoop lib a contractAddress event out rest
        else
          ParseEvent lib a event.Name out log

/-- The function `FindSingleEvent` of `abi.go`. -/
def FindSingleEvent {Out : Type} (lib : AbiLib Out) (a : ABI) (receipt : Receipt)
    (contractAddress : Address) (event : Event) (out : Out) : Out × Option Error :=
  if receipt.Status ≠ 1 then
    (out, some Error.ErrTransactionReverted)
  else
    findLoop lib a contractAddress event out receipt.Logs

/-- The three conditions under which the loop of `FindSingleEvent` stops at a log. -/
def Matches (contractAddress : Address) (event : Event) (l : Log) : Prop :=
  l.Address = contractAddress ∧ 0 < l.Topics.length ∧ l.Topics.head? = some event.ID

instance (contractAddress : Address) (event : Event) (l : Log) :
    Decidable (Matches contractAddress event l) := by
  unfold Matches; infer_instance

/-! ## Transactions, the backend and the signer -/

/-- The type `transaction.TxRequest`. -/
structure TxRequest where
  To : Option Address
  Data : Bytes
  GasPrice : BigInt
  GasLimit : Nat
  Value : BigInt
  Description : String
  deriving DecidableEq, Repr

/-- The type `ethereum.CallMsg`, reduced to the fields set by `prepareTransaction`. -/
structure CallMsg where
  From : Address
  To : Option Address
  Data : Bytes
  deriving DecidableEq, Repr

/-- The type `types.Transaction`: the values a transaction holds.  A contract creation
has no recipient.  Amount and gas price are big integers owned by the transaction, never
nil.  `sig` is what a signer attached to it. -/
structure Transaction where
  nonce : Nat
  recipient : Option Address
  value : Int
  gas : Nat
  gasPrice : Int
  data : Bytes
  sig : Option Nat
  deriving DecidableEq, Repr

/-- The copy go-ethereum makes of a `*big.Int` handed to a transaction constructor: a
fresh integer, initially `0`, set to the argument unless the argument is nil. -/
def copyBig (x : BigInt) : Int :=
  match x with
  | none => 0
  | some v => v

/-- The constructor `types.NewTransaction` of go-ethereum: amount and gas price are
copied, a nil one being stored as `0`. -/
def NewTransaction (nonce : Nat) (recipient : Address) (amount : BigInt) (gasLimit : Nat)
    (gasPrice : BigInt) (data : Bytes) : Transaction :=
  { nonce := nonce, recipient := some recipient, value := copyBig amount, gas := gasLimit,
    gasPrice := copyBig gasPrice, data := data, sig := none }

/-- The constructor `types.NewContractCreation` of go-ethereum: amount and gas price are
copied, a nil one being stored as `0`. -/
def NewContractCreation (nonce : Nat) (amount : BigInt) (gasLimit : Nat)
    (gasPrice : BigInt) (data : Bytes) : Transaction :=
  { nonce := nonce, recipient := none, value := copyBig amount, gas := gasLimit,
    gasPrice := copyBig gasPrice, data := data, sig := none }

/-- A call made by the program on the backend or on the signer. -/
inductive Invocation where
  | PendingNonceAt (account : Address)
  | EstimateGas (msg : CallMsg)
  | SuggestGasPrice
  | SendTransaction (tx : Transaction)
  | SignTx (tx : Transaction) (chainID : BigInt)
  deriving DecidableEq, Repr

/-- The methods of `transaction.Backend` called by `Send`, `prepareTransaction` and
`Deploy`, over a hidden state `σ`. -/
structure Backend (σ : Type) where
  PendingNonceAt : Address → σ → Except Error Nat × σ
  EstimateGas : CallMsg → σ → Except Error Nat × σ
  SuggestGasPrice : σ → Except Error BigInt × σ
  SendTransaction : Transaction → σ → Option Error × σ

/-- The method of `transaction.Signer` called by `Send`. -/
structure Signer (σ : Type) where
  SignTx : Transaction → BigInt → σ → Except Error Transaction × σ

/-- The world outside the program: the hidden state of backend and signer, the calls
made on them so far (oldest first), and the lines printed to standard output. -/
structure World (σ : Type) where
  state : σ
  trace : List Invocation
  stdout : List String

/-- The calls made between world `w` and a later world `w1`. -/
def newCalls {σ : Type} (w w1 : World σ) : List Invocation :=
  w1.trace.drop w.trace.length

/-- The call `backend.PendingNonceAt(_, account)`. -/
def callPendingNonceAt {σ : Type} (backend : Backend σ) (account : Address) (w : World σ) :
    Except Error Nat × World σ :=
  ((backend.PendingNonceAt account w.state).1,
   { state := (backend.PendingNonceAt account w.state).2,
     trace := w.trace ++ [Invocation.PendingNonceAt account], stdout := w.stdout })

/-- The call `backend.EstimateGas(ctx, msg)`. -/
def callEstimateGas {σ : Type} (backend : Backend σ) (msg : CallMsg) (w : World σ) :
    Except Error Nat × World σ :=
  ((backend.EstimateGas msg w.state).1,
   { state := (backend.EstimateGas msg w.state).2,
     trace := w.trace ++ [Invocation.EstimateGas msg], stdout := w.stdout })

/-- The call `backend.SuggestGasPrice(ctx)`. -/
def callSuggestGasPrice {σ : Type} (backend : Backend σ) (w : World σ) :
    Except Error BigInt × World σ :=
  ((backend.SuggestGasPrice w.state).1,
   { state := (backend.SuggestGasPrice w.state).2,
     trace := w.trace ++ [Invocation.SuggestGasPrice], stdout := w.stdout })

/-- The call `backend.SendTransaction(ctx, tx)`. -/
def callSendTransaction {σ : Type} (backend : Backend σ) (tx : Transaction) (w : World σ) :
    Option Error × World σ :=
  ((backend.SendTransaction tx w.state).1,
   { state := (backend.SendTransaction tx w.state).2,
     trace := w.trace ++ [Invocation.SendTransaction tx], stdout := w.stdout })

/-- The call `signer.SignTx(tx, chainID)`. -/
def callSignTx {σ : Type} (signer : Signer σ) (tx : Transaction) (chainID : BigInt)
    (w : World σ) : Except Error Transaction × World σ :=
  ((signer.SignTx tx chainID w.state).1,
   { state := (signer.SignTx tx chainID w.state).2,
     trace := w.trace ++ [Invocation.SignTx tx chainID], stdout := w.stdout })

/-- The call `fmt.Println(line)`. -/
def println {σ : Type} (line : String) (w : World σ) : World σ :=
  { state := w.state, trace := w.trace, stdout := w.stdout ++ [line] }

/-- The function `prepareTransaction` of `abi.go`. -/
def prepareTransaction {σ : Type} (backend : Backend σ) (request : TxRequest)
    (sender : Address) (nonce : Nat) (w : World σ) : Except Error Transaction × World σ :=
  let gasStep : Except Error Nat × World σ :=
    if request.GasLimit = 0 then
      match callEstimateGas backend
          { From := sender, To := request.To, Data := request.Data } w with
      | (Except.error err, w1) => (Except.error err, w1)
      | (Except.ok estimate, w1) => (Except.ok ((estimate + estimate / 5) % 2 ^ 64), w1)
    else
      (Except.ok request.GasLimit, w)
  match gasStep with
  | (Except.error err, w1) => (Except.error err, w1)
  | (Except.ok gasLimit, w1) =>
    let priceStep : Except Error BigInt × World σ :=
      match request.GasPrice with
      | none => callSuggestGasPrice backend w1
      | some p => (Except.ok (some p), w1)
    match priceStep with
    | (Except.error err, w2) => (Except.error err, w2)
    | (Except.ok gasPrice, w2) =>
      match request.To with
      | some recipient =>
        (Except.ok (NewTransaction nonce recipient request.Value gasLimit gasPrice request.Data), w2)
      | none =>
        (Except.ok (NewContractCreation nonce request.Value gasLimit gasPrice request.Data), w2)

/-- The function `Send` of `abi.go`.  `hashOf` is the method `Hash` of
`types.Transaction`. -/
def Send {σ : Type} (backend : Backend σ) (signer : Signer σ) (hashOf : Transaction → Hash)
    (request : TxRequest) (sender : Address) (chainID : BigInt) (w : World σ) :
    (Hash × Option Error) × World σ :=
  match callPendingNonceAt backend sender w with
  | (Except.error err, w1) => ((zeroHash, some err), println "Send err 1" w1)
  | (Except.ok nonce, w1) =>
    match prepareTransaction backend request sender nonce w1 with
    | (Except.error err, w2) => ((zeroHash, some err), w2)
    | (Except.ok tx, w2) =>
      match callSignTx signer tx chainID w2 with
      | (Except.error err, w3) => ((zeroHash, some err), w3)
      | (Except.ok signedTx, w3) =>
        match callSendTransaction backend signedTx w3 with
        | (some err, w4) => ((zeroHash, some err), w4)
        | (none, w4) => ((hashOf signedTx, none), w4)

/-- How a call of an exported function ends: it returns to its caller, or the process
is terminated by `log.Fatal`, which logs the error and calls `os.Exit(1)`. -/
inductive Outcome (α : Type) where
  | returned (v : α)
  | exited (status : Nat) (logged : Error)
  deriving DecidableEq, Repr

/-- An argument handed to `abi.ABI.Pack`. -/
inductive AbiValue where
  | address (a : Address)
  | bigInt (i : Int)
  | hash (h : Hash)
  deriving DecidableEq, Repr

/-- The address `factoryAdd` of `abi.go`. -/
def factoryAdd : Address := 0x5E6802d9e7C8CD43BB7C96524fDD50FE8460B92c

/-- The function `Deploy` of `abi.go`.  `pack` is the method `Pack` of `swapFactoryABI`;
`big.NewInt(0).Set(x)` is a fresh copy of `x`, which as a value is `x`. -/
def Deploy {σ : Type} (pack : String → List AbiValue → Except LibError Bytes)
    (backend : Backend σ) (signer : Signer σ) (hashOf : Transaction → Hash)
    (issuer : Address) (defaultHardDepositTimeoutDuration : Int) (nonce : Hash)
    (chainID : BigInt) (w : World σ) : Outcome (Hash × Option Error) × World σ :=
  match pack "deploySimpleSwap"
      [AbiValue.address issuer, AbiValue.bigInt defaultHardDepositTimeoutDuration,
       AbiValue.hash nonce] with
  | Except.error err => (Outcome.returned (zeroHash, some (Error.lib err)), w)
  | Except.ok callData =>
    match callSuggestGasPrice backend w with
    | (Except.error err, w1) => (Outcome.exited 1 err, w1)
    | (Except.ok gasPrice, w1) =>
      let request : TxRequest :=
        { To := some factoryAdd, Data := callData, GasPrice := gasPrice, GasLimit := 175000,
          Value := some 0, Description := "chequebook deployment" }
      match Send backend signer hashOf request issuer chainID w1 with
      | ((_, some err), w2) => (Outcome.returned (zeroHash, some err), w2)
      | ((txHash, none), w2) => (Outcome.returned (txHash, none), w2)

/-- The function `PreWithdraw` of `abi.go`.  `pack` is the method `Pack` of `swapABI`. -/
def PreWithdraw {σ : Type} (pack : String → List AbiValue → Except LibError Bytes)
    (backend : Backend σ) (signer : Signer σ) (hashOf : Transaction → Hash)
    (fromaddress : Address) (swapAdd : Address) (chainID : BigInt) (w : World σ) :
    Outcome (Hash × Option Error) × World σ :=
  match pack "preWithdraw" [] with
  | Except.error err => (Outcome.returned (zeroHash, some (Error.lib err)), w)
  | Except.ok callData =>
    match callSuggestGasPrice backend w with
    | (Except.error err, w1) => (Outcome.returned (zeroHash, some err), w1)
    | (Except.ok gasPrice, w1) =>
      let request : TxRequest :=
        { To := some swapAdd, Data := callData, GasPrice := gasPrice, GasLimit := 175000,
          Value := some 0, Description := "pre withdraw" }
      match Send backend signer hashOf request fromaddress chainID w1 with
      | ((_, some err), w2) => (Outcome.returned (zeroHash, some err), w2)
      | ((txHash, none), w2) => (Outcome.returned (txHash, none), w2)

/-! ## Concrete inputs -/

/-- A stand-in for the `abi` library whose output value is the list of words written so
far: unpacking fails with error `11` on data whose length is odd and otherwise appends
the data, topic parsing fails with error `22` when the number of topics differs from the
number of indexed arguments and otherwise appends the topics. -/
def demoLib : AbiLib (List Nat) where
  UnpackIntoInterface := fun _ c _ data =>
    if data.length % 2 = 1 then (c, some 11) else (c ++ data, none)
  ParseTopics := fun c indexed topics =>
    if indexed.length ≠ topics.length then (c, some 22) else (c ++ topics, none)

/-- An event with one indexed and one plain input. -/
def demoEvent : Event :=
  { Name := "SimpleSwapDeployed", ID := 500,
    Inputs := [{ Name := "owner", Indexed := true }, { Name := "contractAddress", Indexed := false }] }

/-- An ABI holding `demoEvent`. -/
def demoABI : ABI := { Events := [("SimpleSwapDeployed", demoEvent)] }

/-- A log of another contract carrying the event ID. -/
def logOther : Log := { Address := 8, Topics := [500, 1], Data := [] }

/-- A log of contract `7` without topics. -/
def logNoTopic : Log := { Address := 7, Topics := [], Data := [3, 4] }

/-- A log of contract `7` carrying the event ID whose data the library rejects. -/
def logBad : Log := { Address := 7, Topics := [500, 1], Data := [9] }

/-- A log of contract `7` carrying the event ID that parses. -/
def logGood : Log := { Address := 7, Topics := [500, 1], Data := [3, 4] }

/-- A successful receipt whose first matching log is `logBad`, followed by `logGood`. -/
def demoReceipt : Receipt := { Status := 1, Logs := [logOther, logNoTopic, logBad, logGood] }

/-- A receipt of a reverted transaction that nevertheless carries a matching log. -/
def revertedReceipt : Receipt := { Status := 0, Logs := [logGood] }

/-- A backend whose four answers are fixed in advance; its state counts the calls
received. -/
def scriptedBackend (nonceAnswer gasAnswer : Except Error Nat) (priceAnswer : Except Error BigInt)
    (sendAnswer : Option Error) : Backend Nat where
  PendingNonceAt := fun _ s => (nonceAnswer, s + 1)
  EstimateGas := fun _ s => (gasAnswer, s + 1)
  SuggestGasPrice := fun s => (priceAnswer, s + 1)
  SendTransaction := fun _ s => (sendAnswer, s + 1)

/-- A backend on which every call succeeds: nonce `5`, gas estimate `21001`, gas price
`1000`. -/
def goodBackend : Backend Nat :=
  scriptedBackend (Except.ok 5) (Except.ok 21001) (Except.ok (some 1000)) none

/-- A signer that attaches the chain identifier as signature, and refuses when there is
none. -/
def demoSigner : Signer Nat where
  SignTx := fun tx chainID s =>
    match chainID with
    | none => (Except.error (Error.ext 3), s + 1)
    | some c => (Except.ok { tx with sig := some c.toNat }, s + 1)

/-- A transaction hash for the examples: nonce plus gas plus signature. -/
def demoHash (tx : Transaction) : Hash :=
  tx.nonce + tx.gas + tx.sig.getD 0

/-- The transaction `prepareTransaction` builds from `openRequest` on `goodBackend` with
nonce `5`. -/
def demoTx : Transaction :=
  { nonce := 5, recipient := some 77, value := 0, gas := 25201, gasPrice := 1000,
    data := [1, 2, 3], sig := none }

/-- The transaction `demoSigner` makes of `demoTx` for chain `4`. -/
def demoSignedTx : Transaction :=
  { nonce := 5, recipient := some 77, value := 0, gas := 25201, gasPrice := 1000,
    data := [1, 2, 3], sig := some 4 }

/-- The world before any call. -/
def world0 : World Nat := { state := 0, trace := [], stdout := [] }

/-- A request that fixes neither gas limit nor gas price. -/
def openRequest : TxRequest :=
  { To := some 77, Data := [1, 2, 3], GasPrice := none, GasLimit := 0, Value := some 0,
    Description := "open" }

/-- A request that fixes both gas limit and gas price. -/
def fixedRequest : TxRequest :=
  { To := some 77, Data := [1, 2, 3], GasPrice := some 30, GasLimit := 175000, Value := some 0,
    Description := "fixed" }

/-- A backend on which `SuggestGasPrice` fails with `ext 8` and everything else
succeeds. -/
def failingPriceBackend : Backend Nat :=
  scriptedBackend (Except.ok 5) (Except.ok 21001) (Except.error (Error.ext 8)) none

/-- A backend on which `SuggestGasPrice` answers a nil price together with a nil error
and everything else succeeds. -/
def nilPriceBackend : Backend Nat :=
  scriptedBackend (Except.ok 5) (Except.ok 21001) (Except.ok none) none

/-- A backend on which `SendTransaction` fails with `ext 6` and everything else
succeeds. -/
def failingSendBackend : Backend Nat :=
  scriptedBackend (Except.ok 5) (Except.ok 21001) (Except.ok (some 1000)) (some (Error.ext 6))

/-- A stand-in for `abi.ABI.Pack` that always succeeds. -/
def demoPack : String → List AbiValue → Except LibError Bytes :=
  fun _ args => Except.ok [args.length]

/-- The gas step of `prepareTransaction` succeeds: the limit is given, or the estimate
is obtained. -/
def GasStepOk {σ : Type} (backend : Backend σ) (request : TxRequest) (sender : Address)
    (w : World σ) : Prop :=
  request.GasLimit ≠ 0 ∨
    ∃ e, (backend.EstimateGas { From := sender, To := request.To, Data := request.Data }
      w.state).1 = Except.ok e

/-- The backend state in which `prepareTransaction` reaches its gas price step: the one
left by `EstimateGas` when the limit is estimated, the initial one otherwise. -/
def priceState {σ : Type} (backend : Backend σ) (request : TxRequest) (sender : Address)
    (w : World σ) : σ :=
  if request.GasLimit = 0 then
    (backend.EstimateGas { From := sender, To := request.To, Data := request.Data } w.state).2
  else
    w.state

end ConAbi


namespace ConAbi

/-! ## Event lookup -/

theorem ParseEvent_ne_ErrEventNotFound {Out : Type} (lib : AbiLib Out) (a : ABI)
    (eventName : String) (c : Out) (e : Log) :
    (ParseEvent lib a eventName c e).2 ≠ some Error.ErrEventNotFound := by
  unfold ParseEvent
  by_cases ht : e.Topics.length = 0
  · simp [ht]
  · simp only [ht, if_false]
    generalize (if e.Data.length > 0 then lib.UnpackIntoInterface a c eventName e.Data
      else (c, none)) = unpacked
    rcases unpacked with ⟨c1, _ | err⟩
    · cases h : (lib.ParseTopics c1 (indexedArgs (a.event eventName).Inputs)
        (e.Topics.drop 1)).2 <;> simp [h]
    · simp

theorem findLoop_of_match {Out : Type} (lib : AbiLib Out) (a : ABI) (contractAddress : Address)
    (event : Event) (out : Out) (l : Log) (rest : List Log)
    (hl : Matches contractAddress event l) :
    findLoop lib a contractAddress event out (l :: rest) = ParseEvent lib a event.Name out l := by
  obtain ⟨h1, h2, h3⟩ := hl
  cases ht : l.Topics with
  | nil => simp [ht] at h2
  | cons t ts =>
    rw [ht] at h3
    simp only [List.head?_cons, Option.some.injEq] at h3
    simp [findLoop, h1, ht, h3]

theorem findLoop_of_not_match {Out : Type} (lib : AbiLib Out) (a : ABI)
    (contractAddress : Address) (event : Event) (out : Out) (l : Log) (rest : List Log)
    (hl : ¬ Matches contractAddress event l) :
    findLoop lib a contractAddress event out (l :: rest)
      = findLoop lib a contractAddress event out rest := by
  by_cases h1 : l.Address = contractAddress
  · cases ht : l.Topics with
    | nil => simp [findLoop, h1, ht]
    | cons t ts =>
      have h3 : t ≠ event.ID := by
        intro h
        exact hl ⟨h1, by simp [ht], by simp [ht, h]⟩
      simp [findLoop, h1, ht, h3]
  · simp [findLoop, h1]

theorem findLoop_first {Out : Type} (lib : AbiLib Out) (a : ABI) (contractAddress : Address)
    (event : Event) (out : Out) (pre : List Log) (l : Log) (post : List Log)
    (hpre : ∀ x ∈ pre, ¬ Matches contractAddress event x)
    (hl : Matches contractAddress event l) :
    findLoop lib a contractAddress event out (pre ++ l :: post)
      = ParseEvent lib a event.Name out l := by
  induction pre with
  | nil => exact findLoop_of_match lib a contractAddress event out l post hl
  | cons x xs ih =>
    rw [List.cons_append,
      findLoop_of_not_match lib a contractAddress event out x _ (hpre x (by simp))]
    exact ih (fun y hy => hpre y (by simp [hy]))

theorem findLoop_notFound_iff {Out : Type} (lib : AbiLib Out) (a : ABI)
    (contractAddress : Address) (event : Event) (out : Out) (logs : List Log) :
    (findLoop lib a contractAddress event out logs).2 = some Error.ErrEventNotFound
      ↔ ∀ l ∈ logs, ¬ Matches contractAddress event l := by
  induction logs with
  | nil => simp [findLoop]
  | cons x xs ih =>
    by_cases hx : Matches contractAddress event x
    · rw [findLoop_of_match lib a contractAddress event out x xs hx]
      constructor
      · intro h
        exact absurd h (ParseEvent_ne_ErrEventNotFound lib a event.Name out x)
      · intro h
        exact absurd hx (h x (by simp))
    · rw [findLoop_of_not_match lib a contractAddress event out x xs hx, ih]
      constructor
      · intro h y hy
        rcases List.mem_cons.mp hy with rfl | hy
        · exact hx
        · exact h y hy
      · intro h y hy
        exact h y (by simp [hy])

theorem exists_first_match (contractAddress : Address) (event : Event) (logs : List Log)
    (h : ∃ l ∈ logs, Matches contractAddress event l) :
    ∃ pre l post, logs = pre ++ l :: post ∧
      (∀ x ∈ pre, ¬ Matches contractAddress event x) ∧ Matches contractAddress event l := by
  induction logs with
  | nil => simp at h
  | cons x xs ih =>
    by_cases hx : Matches contractAddress event x
    · exact ⟨[], x, xs, rfl, by simp, hx⟩
    · obtain ⟨l, hl, hm⟩ := h
      rcases List.mem_cons.mp hl with rfl | hl
      · exact absurd hm hx
      · obtain ⟨pre, l1, post, he, hp, hm1⟩ := ih ⟨l, hl, hm⟩
        refine ⟨x :: pre, l1, post, by simp [he], ?_, hm1⟩
        intro y hy
        rcases List.mem_cons.mp hy with rfl | hy
        · exact hx
        · exact hp y hy

/-- C1: on a receipt with `Status = 1`, whenever some log has the contract address, at
least one topic and first topic equal to the event ID, the logs split as
`pre ++ l :: post` with no such log in `pre` and `l` such a log, and for every split of
that kind `FindSingleEvent` returns exactly what `ParseEvent` returns on `l`, whatever
`post` holds and whether or not that parse fails; and `FindSingleEvent` returns
`ErrEventNotFound` if and only if `Status = 1` and no log meets the three conditions. -/
theorem FindSingleEvent_first_match {Out : Type} (lib : AbiLib Out) (a : ABI)
    (receipt : Receipt) (contractAddress : Address) (event : Event) (out : Out) :
    (receipt.Status = 1 → (∃ l ∈ receipt.Logs, Matches contractAddress event l) →
      ∃ pre l post, receipt.Logs = pre ++ l :: post ∧
        (∀ x ∈ pre, ¬ Matches contractAddress event x) ∧ Matches contractAddress event l) ∧
    (∀ pre l post, receipt.Status = 1 → receipt.Logs = pre ++ l :: post →
      (∀ x ∈ pre, ¬ Matches contractAddress event x) → Matches contractAddress event l →
      FindSingleEvent lib a receipt contractAddress event out
        = ParseEvent lib a event.Name out l) ∧
    ((FindSingleEvent lib a receipt contractAddress event out).2 = some Error.ErrEventNotFound
      ↔ receipt.Status = 1 ∧ ∀ l ∈ receipt.Logs, ¬ Matches contractAddress event l) := by
  refine ⟨fun _ h => exists_first_match contractAddress event receipt.Logs h, ?_, ?_⟩
  · intro pre l post hs hlogs hpre hl
    simp only [FindSingleEvent, hs, ne_eq, not_true_eq_false, if_false, hlogs]
    exact findLoop_first lib a contractAddress event out pre l post hpre hl
  · by_cases hs : receipt.Status = 1
    · simp only [FindSingleEvent, hs, ne_eq, not_true_eq_false, if_false, true_and]
      exact findLoop_notFound_iff lib a contractAddress event out receipt.Logs
    · simp [FindSingleEvent, hs]

/-- The receipt `demoReceipt` has its first matching log, `logBad`, at index two: the
result is the failed parse of `logBad`, and the later `logGood` is not consulted. -/
theorem FindSingleEvent_first_match_witness :
    FindSingleEvent demoLib demoABI demoReceipt 7 demoEvent [] = ([], some (Error.lib 11)) ∧
    FindSingleEvent demoLib demoABI demoReceipt 7 demoEvent []
      = ParseEvent demoLib demoABI demoEvent.Name [] logBad :=
  ⟨by decide,
   (FindSingleEvent_first_match demoLib demoABI demoReceipt 7 demoEvent []).2.1
     [logOther, logNoTopic] logBad [logGood] (by decide) (by decide) (by decide) (by decide)⟩

/-- C2: on a receipt whose `Status` is not `1`, `FindSingleEvent` returns
`ErrTransactionReverted` whatever the logs are, and the output value is the one passed
in. -/
theorem FindSingleEvent_reverted {Out : Type} (lib : AbiLib Out) (a : ABI)
    (receipt : Receipt) (contractAddress : Address) (event : Event) (out : Out)
    (hs : receipt.Status ≠ 1) :
    FindSingleEvent lib a receipt contractAddress event out
      = (out, some Error.ErrTransactionReverted) := by
  simp [FindSingleEvent, hs]

/-- The reverted receipt carries a log that matches address and event ID and would
parse; the error is `ErrTransactionReverted` and the output stays `[42]`. -/
theorem FindSingleEvent_reverted_witness :
    Matches 7 demoEvent logGood ∧ logGood ∈ revertedReceipt.Logs ∧
    FindSingleEvent demoLib demoABI revertedReceipt 7 demoEvent [42]
      = ([42], some Error.ErrTransactionReverted) :=
  ⟨by decide, by decide,
   FindSingleEvent_reverted demoLib demoABI revertedReceipt 7 demoEvent [42] (by decide)⟩


/-! ## Building the transaction -/

theorem newCalls_of_append {σ : Type} (w w1 : World σ) (calls : List Invocation)
    (h : w1.trace = w.trace ++ calls) : newCalls w w1 = calls := by
  simp [newCalls, h]

theorem prepareTransaction_trace {σ : Type} (backend : Backend σ) (request : TxRequest)
    (sender : Address) (nonce : Nat) (w : World σ) :
    ∃ calls, (prepareTransaction backend request sender nonce w).2.trace = w.trace ++ calls ∧
      (request.GasLimit ≠ 0 → ∀ msg, Invocation.EstimateGas msg ∉ calls) ∧
      (request.GasPrice ≠ none → Invocation.SuggestGasPrice ∉ calls) ∧
      ∀ c ∈ calls, (∃ msg, c = Invocation.EstimateGas msg) ∨ c = Invocation.SuggestGasPrice := by
  rcases request with ⟨recipient, data, gasPrice, gasLimit, value, description⟩
  by_cases hg : gasLimit = 0 <;>
  cases he : (backend.EstimateGas
    { From := sender, To := recipient, Data := data } w.state).1 <;>
  cases gasPrice <;>
  cases hs : (backend.SuggestGasPrice (priceState backend
    ⟨recipient, data, none, gasLimit, value, description⟩ sender w)).1 <;>
  cases recipient <;>
  simp [prepareTransaction, callEstimateGas, callSuggestGasPrice, priceState, hg, he] at hs ⊢ <;>
  simp [hs]


/-- C3: the gas limit of the transaction built by `prepareTransaction`.  With a non-zero
`request.GasLimit` the transaction carries exactly that limit and no `EstimateGas` call
is made.  With `request.GasLimit = 0`, when the backend estimates `e` the transaction
carries `(e + e / 5) % 2 ^ 64`, and when the backend fails the result is that error and
no transaction.  In both successful cases a transaction is built as soon as the gas
price is given in the request. -/
theorem prepareTransaction_gasLimit {σ : Type} (backend : Backend σ) (request : TxRequest)
    (sender : Address) (nonce : Nat) (w : World σ) :
    (request.GasLimit ≠ 0 →
      (∀ tx, (prepareTransaction backend request sender nonce w).1 = Except.ok tx →
        tx.gas = request.GasLimit) ∧
      (request.GasPrice ≠ none →
        ∃ tx, (prepareTransaction backend request sender nonce w).1 = Except.ok tx) ∧
      (prepareTransaction backend request sender nonce w).2.trace
        = w.trace ++ newCalls w (prepareTransaction backend request sender nonce w).2 ∧
      ∀ msg, Invocation.EstimateGas msg ∉
        newCalls w (prepareTransaction backend request sender nonce w).2) ∧
    (request.GasLimit = 0 →
      (∀ e, (backend.EstimateGas { From := sender, To := request.To, Data := request.Data }
          w.state).1 = Except.ok e →
        (∀ tx, (prepareTransaction backend request sender nonce w).1 = Except.ok tx →
          tx.gas = (e + e / 5) % 2 ^ 64) ∧
        (request.GasPrice ≠ none →
          ∃ tx, (prepareTransaction backend request sender nonce w).1 = Except.ok tx)) ∧
      (∀ err, (backend.EstimateGas { From := sender, To := request.To, Data := request.Data }
          w.state).1 = Except.error err →
        (prepareTransaction backend request sender nonce w).1 = Except.error err)) := by
  refine ⟨fun hg => ⟨?_, ?_, ?_, ?_⟩, fun hg => ⟨fun e he => ⟨?_, ?_⟩, fun err he => ?_⟩⟩
  · rcases request with ⟨recipient, data, gasPrice, gasLimit, value, description⟩
    have hg1 : ¬ gasLimit = 0 := hg
    intro tx
    cases gasPrice <;>
    cases hs : (backend.SuggestGasPrice w.state).1 <;>
    cases recipient <;>
    simp [prepareTransaction, callSuggestGasPrice, NewTransaction, NewContractCreation,
      hs, hg1] <;>
    intro h <;> simp [← h]
  · rcases request with ⟨recipient, data, gasPrice, gasLimit, value, description⟩
    have hg1 : ¬ gasLimit = 0 := hg
    cases gasPrice <;> cases recipient <;> simp [prepareTransaction, hg1]
  · obtain ⟨calls, h1, -⟩ := prepareTransaction_trace backend request sender nonce w
    rw [newCalls_of_append w _ calls h1, h1]
  · obtain ⟨calls, h1, h2, -⟩ := prepareTransaction_trace backend request sender nonce w
    rw [newCalls_of_append w _ calls h1]
    exact h2 hg
  · rcases request with ⟨recipient, data, gasPrice, gasLimit, value, description⟩
    intro tx
    simp only at hg he
    subst hg
    cases gasPrice <;>
    cases hs : (backend.SuggestGasPrice (backend.EstimateGas
      { From := sender, To := recipient, Data := data } w.state).2).1 <;>
    cases recipient <;>
    simp [prepareTransaction, callEstimateGas, callSuggestGasPrice, NewTransaction,
      NewContractCreation, he, hs] <;>
    intro h <;> simp [← h]
  · rcases request with ⟨recipient, data, gasPrice, gasLimit, value, description⟩
    simp only at hg he
    subst hg
    cases gasPrice <;> cases recipient <;>
    simp [prepareTransaction, callEstimateGas, he]
  · rcases request with ⟨recipient, data, gasPrice, gasLimit, value, description⟩
    simp only at hg he
    subst hg
    simp [prepareTransaction, callEstimateGas, he]


/-- With `openRequest` the backend is asked and answers `21001`; the transaction carries
`21001 + 4200 = 25201`.  With `fixedRequest` the limit is the requested `175000` and the
trace stays empty. -/
theorem prepareTransaction_gasLimit_witness :
    (openRequest.GasLimit = 0 ∧
      (goodBackend.EstimateGas { From := 9, To := openRequest.To, Data := openRequest.Data }
        world0.state).1 = Except.ok 21001 ∧
      (21001 + 21001 / 5) % 2 ^ 64 = 25201 ∧
      ∀ tx, (prepareTransaction goodBackend openRequest 9 5 world0).1 = Except.ok tx →
        tx.gas = (21001 + 21001 / 5) % 2 ^ 64) ∧
    (fixedRequest.GasLimit ≠ 0 ∧
      (∀ tx, (prepareTransaction goodBackend fixedRequest 9 5 world0).1 = Except.ok tx →
        tx.gas = fixedRequest.GasLimit) ∧
      ∀ msg, Invocation.EstimateGas msg ∉
        newCalls world0 (prepareTransaction goodBackend fixedRequest 9 5 world0).2) :=
  ⟨⟨rfl, rfl, by decide,
    (((prepareTransaction_gasLimit goodBackend openRequest 9 5 world0).2 rfl).1 21001 rfl).1⟩,
   ⟨by decide,
    ((prepareTransaction_gasLimit goodBackend fixedRequest 9 5 world0).1 (by decide)).1,
    ((prepareTransaction_gasLimit goodBackend fixedRequest 9 5 world0).1 (by decide)).2.2.2⟩⟩

theorem prepareTransaction_price_suggested {σ : Type} (backend : Backend σ)
    (request : TxRequest) (sender : Address) (nonce : Nat) (w : World σ)
    (hp : request.GasPrice = none) (hok : GasStepOk backend request sender w) (gp : BigInt)
    (hs : (backend.SuggestGasPrice (priceState backend request sender w)).1 = Except.ok gp) :
    ∃ tx, (prepareTransaction backend request sender nonce w).1 = Except.ok tx ∧
      tx.gasPrice = copyBig gp := by
  rcases request with ⟨recipient, data, gasPrice, gasLimit, value, description⟩
  simp only at hp
  subst hp
  rcases hok with hg | ⟨e, he⟩
  · have hg1 : ¬ gasLimit = 0 := hg
    cases recipient <;>
    simp [priceState, hg1] at hs <;>
    simp [prepareTransaction, callSuggestGasPrice, NewTransaction, NewContractCreation,
      hg1, hs]
  · by_cases hg : gasLimit = 0 <;> cases recipient <;>
      simp [priceState, hg] at hs he <;>
      simp [prepareTransaction, callEstimateGas, callSuggestGasPrice, NewTransaction,
        NewContractCreation, hg, hs, he]

/-- C4, as amended: the gas price of the transaction built by `prepareTransaction`.  With
a non-nil `request.GasPrice` the transaction carries exactly that price and no
`SuggestGasPrice` call is made.  With a nil `request.GasPrice`, once the gas step has
succeeded: when the backend suggests a non-nil price a transaction is built and carries
it; when the backend answers a nil price with a nil error a transaction is built and
carries price `0`; when the backend fails the result is that error and no
transaction. -/
theorem prepareTransaction_gasPrice {σ : Type} (backend : Backend σ) (request : TxRequest)
    (sender : Address) (nonce : Nat) (w : World σ) :
    (∀ p, request.GasPrice = some p →
      (∀ tx, (prepareTransaction backend request sender nonce w).1 = Except.ok tx →
        tx.gasPrice = p) ∧
      (GasStepOk backend request sender w →
        ∃ tx, (prepareTransaction backend request sender nonce w).1 = Except.ok tx) ∧
      (prepareTransaction backend request sender nonce w).2.trace
        = w.trace ++ newCalls w (prepareTransaction backend request sender nonce w).2 ∧
      Invocation.SuggestGasPrice ∉
        newCalls w (prepareTransaction backend request sender nonce w).2) ∧
    (request.GasPrice = none → GasStepOk backend request sender w →
      (∀ g, (backend.SuggestGasPrice (priceState backend request sender w)).1
          = Except.ok (some g) →
        ∃ tx, (prepareTransaction backend request sender nonce w).1 = Except.ok tx ∧
          tx.gasPrice = g) ∧
      ((backend.SuggestGasPrice (priceState backend request sender w)).1 = Except.ok none →
        ∃ tx, (prepareTransaction backend request sender nonce w).1 = Except.ok tx ∧
          tx.gasPrice = 0) ∧
      (∀ err, (backend.SuggestGasPrice (priceState backend request sender w)).1
          = Except.error err →
        (prepareTransaction backend request sender nonce w).1 = Except.error err)) := by
  refine ⟨fun p hp => ⟨?_, ?_, ?_, ?_⟩,
    fun hp hok => ⟨fun g hs => ?_, fun hs => ?_, fun err hs => ?_⟩⟩
  · rcases request with ⟨recipient, data, gasPrice, gasLimit, value, description⟩
    simp only at hp
    subst hp
    intro tx
    by_cases hg : gasLimit = 0 <;>
    cases he : (backend.EstimateGas
      { From := sender, To := recipient, Data := data } w.state).1 <;>
    cases recipient <;>
    simp [prepareTransaction, callEstimateGas, NewTransaction, NewContractCreation,
      copyBig, he, hg] <;>
    intro h <;> simp [← h]
  · rcases request with ⟨recipient, data, gasPrice, gasLimit, value, description⟩
    simp only at hp
    subst hp
    intro hok
    rcases hok with hg | ⟨e, he⟩
    · have hg1 : ¬ gasLimit = 0 := hg
      cases recipient <;> simp [prepareTransaction, hg1]
    · by_cases hg : gasLimit = 0 <;> cases recipient <;>
        simp [prepareTransaction, callEstimateGas, hg] <;> simp at he <;> simp [he]
  · obtain ⟨calls, h1, -⟩ := prepareTransaction_trace backend request sender nonce w
    rw [newCalls_of_append w _ calls h1, h1]
  · obtain ⟨calls, h1, -, h3, -⟩ := prepareTransaction_trace backend request sender nonce w
    rw [newCalls_of_append w _ calls h1]
    exact h3 (by simp [hp])
  · exact prepareTransaction_price_suggested backend request sender nonce w hp hok (some g) hs
  · exact prepareTransaction_price_suggested backend request sender nonce w hp hok none hs
  · rcases request with ⟨recipient, data, gasPrice, gasLimit, value, description⟩
    simp only at hp
    subst hp
    rcases hok with hg | ⟨e, he⟩
    · have hg1 : ¬ gasLimit = 0 := hg
      cases recipient <;>
      simp [priceState, hg1] at hs <;>
      simp [prepareTransaction, callSuggestGasPrice, hg1, hs]
    · by_cases hg : gasLimit = 0 <;> cases recipient <;>
        simp [priceState, hg] at hs he <;>
        simp [prepareTransaction, callEstimateGas, callSuggestGasPrice, hg, hs, he]

/-- With `fixedRequest` the price is the requested `30` and `SuggestGasPrice` is not
called; with `openRequest` the price `1000` suggested by `goodBackend` is used, and the
nil price answered by `nilPriceBackend` gives price `0`; when the backend fails with
`ext 8` that error is the result. -/
theorem prepareTransaction_gasPrice_witness :
    (fixedRequest.GasPrice = some 30 ∧
      (∀ tx, (prepareTransaction goodBackend fixedRequest 9 5 world0).1 = Except.ok tx →
        tx.gasPrice = 30) ∧
      Invocation.SuggestGasPrice ∉
        newCalls world0 (prepareTransaction goodBackend fixedRequest 9 5 world0).2) ∧
    (openRequest.GasPrice = none ∧ GasStepOk goodBackend openRequest 9 world0 ∧
      ∃ tx, (prepareTransaction goodBackend openRequest 9 5 world0).1 = Except.ok tx ∧
        tx.gasPrice = 1000) ∧
    (GasStepOk nilPriceBackend openRequest 9 world0 ∧
      ∃ tx, (prepareTransaction nilPriceBackend openRequest 9 5 world0).1 = Except.ok tx ∧
        tx.gasPrice = 0) ∧
    (prepareTransaction failingPriceBackend openRequest 9 5 world0).1
      = Except.error (Error.ext 8) :=
  ⟨⟨rfl,
    ((prepareTransaction_gasPrice goodBackend fixedRequest 9 5 world0).1 30 rfl).1,
    ((prepareTransaction_gasPrice goodBackend fixedRequest 9 5 world0).1 30 rfl).2.2.2⟩,
   ⟨rfl, Or.inr ⟨21001, rfl⟩,
    ((prepareTransaction_gasPrice goodBackend openRequest 9 5 world0).2 rfl
      (Or.inr ⟨21001, rfl⟩)).1 1000 rfl⟩,
   ⟨Or.inr ⟨21001, rfl⟩,
    ((prepareTransaction_gasPrice nilPriceBackend openRequest 9 5 world0).2 rfl
      (Or.inr ⟨21001, rfl⟩)).2.1 rfl⟩,
   ((prepareTransaction_gasPrice failingPriceBackend openRequest 9 5 world0).2 rfl
      (Or.inr ⟨21001, rfl⟩)).2.2 (Error.ext 8) rfl⟩

/-- C4, as first stated, fails on `nilPriceBackend`: the request leaves the price open,
the backend's suggestion is the nil price with a nil error, and the transaction that is
built carries price `0`, which is not the suggestion. -/
theorem prepareTransaction_gasPrice_nil_suggestion :
    openRequest.GasPrice = none ∧
    (nilPriceBackend.SuggestGasPrice (priceState nilPriceBackend openRequest 9 world0)).1
      = Except.ok none ∧
    (prepareTransaction nilPriceBackend openRequest 9 5 world0).1
      = Except.ok { nonce := 5, recipient := some 77, value := 0, gas := 25201,
                    gasPrice := 0, data := [1, 2, 3], sig := none } ∧
    ¬ (∀ gp, (nilPriceBackend.SuggestGasPrice
          (priceState nilPriceBackend openRequest 9 world0)).1 = Except.ok gp →
        ∃ tx, (prepareTransaction nilPriceBackend openRequest 9 5 world0).1 = Except.ok tx ∧
          some tx.gasPrice = gp) := by
  refine ⟨rfl, rfl, rfl, ?_⟩
  intro h
  obtain ⟨tx, -, h2⟩ := h none rfl
  exact absurd h2 (by simp)

/-! ## Sending -/

theorem prepareTransaction_nonce {σ : Type} (backend : Backend σ) (request : TxRequest)
    (sender : Address) (nonce : Nat) (w : World σ) (tx : Transaction)
    (h : (prepareTransaction backend request sender nonce w).1 = Except.ok tx) :
    tx.nonce = nonce := by
  rcases request with ⟨recipient, data, gasPrice, gasLimit, value, description⟩
  revert h
  by_cases hg : gasLimit = 0 <;>
  cases he : (backend.EstimateGas
    { From := sender, To := recipient, Data := data } w.state).1 <;>
  cases gasPrice <;>
  cases hs : (backend.SuggestGasPrice (priceState backend
    ⟨recipient, data, none, gasLimit, value, description⟩ sender w)).1 <;>
  cases recipient <;>
  simp [priceState, hg] at hs <;>
  simp [prepareTransaction, callEstimateGas, callSuggestGasPrice, NewTransaction,
    NewContractCreation, hg, he, hs] <;>
  intro h <;> simp [← h]


theorem Send_of_nonce_error {σ : Type} (backend : Backend σ) (signer : Signer σ)
    (hashOf : Transaction → Hash) (request : TxRequest) (sender : Address) (chainID : BigInt)
    (w w1 : World σ) (err : Error)
    (h1 : callPendingNonceAt backend sender w = (Except.error err, w1)) :
    Send backend signer hashOf request sender chainID w
      = ((zeroHash, some err), println "Send err 1" w1) := by
  simp [Send, h1]

theorem Send_of_prepare_error {σ : Type} (backend : Backend σ) (signer : Signer σ)
    (hashOf : Transaction → Hash) (request : TxRequest) (sender : Address) (chainID : BigInt)
    (w w1 w2 : World σ) (nonce : Nat) (err : Error)
    (h1 : callPendingNonceAt backend sender w = (Except.ok nonce, w1))
    (h2 : prepareTransaction backend request sender nonce w1 = (Except.error err, w2)) :
    Send backend signer hashOf request sender chainID w = ((zeroHash, some err), w2) := by
  simp [Send, h1, h2]

theorem Send_of_sign_error {σ : Type} (backend : Backend σ) (signer : Signer σ)
    (hashOf : Transaction → Hash) (request : TxRequest) (sender : Address) (chainID : BigInt)
    (w w1 w2 w3 : World σ) (nonce : Nat) (tx : Transaction) (err : Error)
    (h1 : callPendingNonceAt backend sender w = (Except.ok nonce, w1))
    (h2 : prepareTransaction backend request sender nonce w1 = (Except.ok tx, w2))
    (h3 : callSignTx signer tx chainID w2 = (Except.error err, w3)) :
    Send backend signer hashOf request sender chainID w = ((zeroHash, some err), w3) := by
  simp [Send, h1, h2, h3]

theorem Send_of_send_error {σ : Type} (backend : Backend σ) (signer : Signer σ)
    (hashOf : Transaction → Hash) (request : TxRequest) (sender : Address) (chainID : BigInt)
    (w w1 w2 w3 w4 : World σ) (nonce : Nat) (tx signedTx : Transaction) (err : Error)
    (h1 : callPendingNonceAt backend sender w = (Except.ok nonce, w1))
    (h2 : prepareTransaction backend request sender nonce w1 = (Except.ok tx, w2))
    (h3 : callSignTx signer tx chainID w2 = (Except.ok signedTx, w3))
    (h4 : callSendTransaction backend signedTx w3 = (some err, w4)) :
    Send backend signer hashOf request sender chainID w = ((zeroHash, some err), w4) := by
  simp [Send, h1, h2, h3, h4]

theorem Send_of_success {σ : Type} (backend : Backend σ) (signer : Signer σ)
    (hashOf : Transaction → Hash) (request : TxRequest) (sender : Address) (chainID : BigInt)
    (w w1 w2 w3 w4 : World σ) (nonce : Nat) (tx signedTx : Transaction)
    (h1 : callPendingNonceAt backend sender w = (Except.ok nonce, w1))
    (h2 : prepareTransaction backend request sender nonce w1 = (Except.ok tx, w2))
    (h3 : callSignTx signer tx chainID w2 = (Except.ok signedTx, w3))
    (h4 : callSendTransaction backend signedTx w3 = (none, w4)) :
    Send backend signer hashOf request sender chainID w = ((hashOf signedTx, none), w4) := by
  simp [Send, h1, h2, h3, h4]

theorem trace_of_callPendingNonceAt {σ : Type} (backend : Backend σ) (sender : Address)
    (w w1 : World σ) (r : Except Error Nat) (h : callPendingNonceAt backend sender w = (r, w1)) :
    w1.trace = w.trace ++ [Invocation.PendingNonceAt sender] := by
  have h2 := congrArg (fun p => p.2.trace) h
  simpa [callPendingNonceAt] using h2.symm

theorem trace_of_callSignTx {σ : Type} (signer : Signer σ) (tx : Transaction)
    (chainID : BigInt) (w w1 : World σ) (r : Except Error Transaction)
    (h : callSignTx signer tx chainID w = (r, w1)) :
    w1.trace = w.trace ++ [Invocation.SignTx tx chainID] := by
  have h2 := congrArg (fun p => p.2.trace) h
  simpa [callSignTx] using h2.symm

theorem trace_of_prepareTransaction {σ : Type} (backend : Backend σ) (request : TxRequest)
    (sender : Address) (nonce : Nat) (w w1 : World σ) (r : Except Error Transaction)
    (h : prepareTransaction backend request sender nonce w = (r, w1)) :
    ∃ calls, w1.trace = w.trace ++ calls ∧
      ∀ c ∈ calls, (∃ msg, c = Invocation.EstimateGas msg) ∨ c = Invocation.SuggestGasPrice := by
  obtain ⟨calls, h1, -, -, h4⟩ := prepareTransaction_trace backend request sender nonce w
  rw [h] at h1
  exact ⟨calls, h1, h4⟩

theorem trace_of_callSendTransaction {σ : Type} (backend : Backend σ) (tx : Transaction)
    (w w1 : World σ) (r : Option Error) (h : callSendTransaction backend tx w = (r, w1)) :
    w1.trace = w.trace ++ [Invocation.SendTransaction tx] := by
  have h2 := congrArg (fun p => p.2.trace) h
  simpa [callSendTransaction] using h2.symm

/-- C5: the steps of `Send`.  A failure of the nonce lookup, of `prepareTransaction`, of
signing or of submission makes `Send` return the zero hash with that very error, and the
steps after the failing one are not run: the world `Send` leaves behind is the one left
by the failing step, so that after a failed lookup the only call made is
`PendingNonceAt`, after a failed preparation there is neither a `SignTx` nor a
`SendTransaction` call, after a failed signature there is no `SendTransaction` call.
The prepared transaction carries the nonce answered by `PendingNonceAt`, it is the one
handed to the signer, and the signer's result is the one submitted.  When submission is
reached, failing or not, the world left behind is the one left by `SendTransaction` on
the signed transaction, and the calls made are, in order, `PendingNonceAt`, those of
`prepareTransaction`, `SignTx`, `SendTransaction`.  `Send` returns a nil error if and
only if the four steps succeed, and the hash returned is then the hash of the signed
transaction. -/
theorem Send_steps {σ : Type} (backend : Backend σ) (signer : Signer σ)
    (hashOf : Transaction → Hash) (request : TxRequest) (sender : Address) (chainID : BigInt)
    (w : World σ) :
    (∀ err w1, callPendingNonceAt backend sender w = (Except.error err, w1) →
      (Send backend signer hashOf request sender chainID w).1 = (zeroHash, some err) ∧
      (Send backend signer hashOf request sender chainID w).2 = println "Send err 1" w1 ∧
      (Send backend signer hashOf request sender chainID w).2.trace
        = w.trace ++ [Invocation.PendingNonceAt sender]) ∧
    (∀ nonce w1, callPendingNonceAt backend sender w = (Except.ok nonce, w1) →
      (∀ err w2, prepareTransaction backend request sender nonce w1 = (Except.error err, w2) →
        (Send backend signer hashOf request sender chainID w).1 = (zeroHash, some err) ∧
        (Send backend signer hashOf request sender chainID w).2 = w2 ∧
        (Send backend signer hashOf request sender chainID w).2.trace = w.trace ++
          newCalls w (Send backend signer hashOf request sender chainID w).2 ∧
        newCalls w (Send backend signer hashOf request sender chainID w).2
          = Invocation.PendingNonceAt sender :: newCalls w1 w2 ∧
        ∀ c ∈ newCalls w (Send backend signer hashOf request sender chainID w).2,
          (∀ t ch, c ≠ Invocation.SignTx t ch) ∧ ∀ t, c ≠ Invocation.SendTransaction t) ∧
      (∀ tx w2, prepareTransaction backend request sender nonce w1 = (Except.ok tx, w2) →
        tx.nonce = nonce ∧
        (∀ err w3, callSignTx signer tx chainID w2 = (Except.error err, w3) →
          (Send backend signer hashOf request sender chainID w).1 = (zeroHash, some err) ∧
          (Send backend signer hashOf request sender chainID w).2 = w3 ∧
          (Send backend signer hashOf request sender chainID w).2.trace = w.trace ++
            newCalls w (Send backend signer hashOf request sender chainID w).2 ∧
          newCalls w (Send backend signer hashOf request sender chainID w).2
            = Invocation.PendingNonceAt sender ::
                (newCalls w1 w2 ++ [Invocation.SignTx tx chainID]) ∧
          ∀ t, Invocation.SendTransaction t ∉
            newCalls w (Send backend signer hashOf request sender chainID w).2) ∧
        (∀ signedTx w3, callSignTx signer tx chainID w2 = (Except.ok signedTx, w3) →
          (∀ r w4, callSendTransaction backend signedTx w3 = (r, w4) →
            (Send backend signer hashOf request sender chainID w).2 = w4 ∧
            (Send backend signer hashOf request sender chainID w).2.trace = w.trace ++
              newCalls w (Send backend signer hashOf request sender chainID w).2 ∧
            newCalls w (Send backend signer hashOf request sender chainID w).2
              = Invocation.PendingNonceAt sender :: (newCalls w1 w2 ++
                  [Invocation.SignTx tx chainID, Invocation.SendTransaction signedTx])) ∧
          (∀ err w4, callSendTransaction backend signedTx w3 = (some err, w4) →
            (Send backend signer hashOf request sender chainID w).1 = (zeroHash, some err)) ∧
          (∀ w4, callSendTransaction backend signedTx w3 = (none, w4) →
            (Send backend signer hashOf request sender chainID w).1
              = (hashOf signedTx, none))))) ∧
    ((Send backend signer hashOf request sender chainID w).1.2 = none ↔
      ∃ nonce w1 tx w2 signedTx w3 w4,
        callPendingNonceAt backend sender w = (Except.ok nonce, w1) ∧
        prepareTransaction backend request sender nonce w1 = (Except.ok tx, w2) ∧
        callSignTx signer tx chainID w2 = (Except.ok signedTx, w3) ∧
        callSendTransaction backend signedTx w3 = (none, w4) ∧
        Send backend signer hashOf request sender chainID w
          = ((hashOf signedTx, none), w4)) := by
  refine ⟨?_, ?_, ?_⟩
  · intro err w1 h1
    rw [Send_of_nonce_error backend signer hashOf request sender chainID w w1 err h1]
    exact ⟨rfl, rfl, trace_of_callPendingNonceAt backend sender w w1 _ h1⟩
  · intro nonce w1 h1
    have t1 := trace_of_callPendingNonceAt backend sender w w1 _ h1
    refine ⟨?_, ?_⟩
    · intro err w2 h2
      rw [Send_of_prepare_error backend signer hashOf request sender chainID w w1 w2 nonce err
        h1 h2]
      obtain ⟨calls, t2, hc⟩ := trace_of_prepareTransaction backend request sender nonce w1 w2 _ h2
      have t : w2.trace = w.trace ++ (Invocation.PendingNonceAt sender :: calls) := by
        rw [t2, t1]; simp
      refine ⟨rfl, rfl, ?_, ?_, ?_⟩
      · rw [newCalls_of_append w w2 _ t]; exact t
      · rw [newCalls_of_append w w2 _ t, newCalls_of_append w1 w2 _ t2]
      · rw [newCalls_of_append w w2 _ t]
        intro c hcm
        rcases List.mem_cons.mp hcm with rfl | hcm
        · exact ⟨fun _ _ => by simp, fun _ => by simp⟩
        · rcases hc c hcm with ⟨msg, rfl⟩ | rfl
          · exact ⟨fun _ _ => by simp, fun _ => by simp⟩
          · exact ⟨fun _ _ => by simp, fun _ => by simp⟩
    · intro tx w2 h2
      obtain ⟨calls, t2, hc⟩ := trace_of_prepareTransaction backend request sender nonce w1 w2 _ h2
      refine ⟨prepareTransaction_nonce backend request sender nonce w1 tx (by rw [h2]), ?_, ?_⟩
      · intro err w3 h3
        rw [Send_of_sign_error backend signer hashOf request sender chainID w w1 w2 w3 nonce tx
          err h1 h2 h3]
        have t3 := trace_of_callSignTx signer tx chainID w2 w3 _ h3
        have t : w3.trace = w.trace ++
            (Invocation.PendingNonceAt sender :: (calls ++ [Invocation.SignTx tx chainID])) := by
          rw [t3, t2, t1]; simp
        refine ⟨rfl, rfl, ?_, ?_, ?_⟩
        · rw [newCalls_of_append w w3 _ t]; exact t
        · rw [newCalls_of_append w w3 _ t, newCalls_of_append w1 w2 _ t2]
        · rw [newCalls_of_append w w3 _ t]
          intro t0 hcm
          rcases List.mem_cons.mp hcm with h | hcm
          · simp at h
          · rcases List.mem_append.mp hcm with hcm | hcm
            · rcases hc _ hcm with ⟨msg, h⟩ | h <;> simp at h
            · simp at hcm
      · intro signedTx w3 h3
        have t3 := trace_of_callSignTx signer tx chainID w2 w3 _ h3
        refine ⟨?_, ?_, ?_⟩
        · intro r w4 h4
          have t4 := trace_of_callSendTransaction backend signedTx w3 w4 _ h4
          have t : w4.trace = w.trace ++ (Invocation.PendingNonceAt sender ::
              (calls ++ [Invocation.SignTx tx chainID,
                Invocation.SendTransaction signedTx])) := by
            rw [t4, t3, t2, t1]; simp
          have hw : (Send backend signer hashOf request sender chainID w).2 = w4 := by
            cases r with
            | some err =>
              rw [Send_of_send_error backend signer hashOf request sender chainID w w1 w2 w3
                w4 nonce tx signedTx err h1 h2 h3 h4]
            | none =>
              rw [Send_of_success backend signer hashOf request sender chainID w w1 w2 w3 w4
                nonce tx signedTx h1 h2 h3 h4]
          rw [hw]
          refine ⟨rfl, ?_, ?_⟩
          · rw [newCalls_of_append w w4 _ t]; exact t
          · rw [newCalls_of_append w w4 _ t, newCalls_of_append w1 w2 _ t2]
        · intro err w4 h4
          rw [Send_of_send_error backend signer hashOf request sender chainID w w1 w2 w3 w4
            nonce tx signedTx err h1 h2 h3 h4]
        · intro w4 h4
          rw [Send_of_success backend signer hashOf request sender chainID w w1 w2 w3 w4
            nonce tx signedTx h1 h2 h3 h4]
  · constructor
    · intro h
      rcases h1 : callPendingNonceAt backend sender w with ⟨r1, w1⟩
      cases r1 with
      | error err =>
        rw [Send_of_nonce_error backend signer hashOf request sender chainID w w1 err h1] at h
        simp at h
      | ok nonce =>
        rcases h2 : prepareTransaction backend request sender nonce w1 with ⟨r2, w2⟩
        cases r2 with
        | error err =>
          rw [Send_of_prepare_error backend signer hashOf request sender chainID w w1 w2 nonce
            err h1 h2] at h
          simp at h
        | ok tx =>
          rcases h3 : callSignTx signer tx chainID w2 with ⟨r3, w3⟩
          cases r3 with
          | error err =>
            rw [Send_of_sign_error backend signer hashOf request sender chainID w w1 w2 w3
              nonce tx err h1 h2 h3] at h
            simp at h
          | ok signedTx =>
            rcases h4 : callSendTransaction backend signedTx w3 with ⟨r4, w4⟩
            cases r4 with
            | some err =>
              rw [Send_of_send_error backend signer hashOf request sender chainID w w1 w2 w3
                w4 nonce tx signedTx err h1 h2 h3 h4] at h
              simp at h
            | none =>
              exact ⟨nonce, w1, tx, w2, signedTx, w3, w4, rfl, h2, h3, h4,
                Send_of_success backend signer hashOf request sender chainID w w1 w2 w3 w4
                  nonce tx signedTx h1 h2 h3 h4⟩
    · rintro ⟨nonce, w1, tx, w2, signedTx, w3, w4, -, -, -, -, h⟩
      rw [h]

/-- On `goodBackend` the four steps succeed: the nonce is `5`, the signed transaction
carries gas `25201` and signature `4`, its hash `25210` is returned, and the calls made
end with `SignTx` and `SendTransaction`.  On `failingSendBackend` the submission is made
and fails: the zero hash and the backend's error are returned.  Without a chain
identifier the signer refuses: the zero hash and the signer's error are returned and no
`SendTransaction` call is made. -/
theorem Send_steps_witness :
    ((Send goodBackend demoSigner demoHash openRequest 9 (some 4) world0).1
        = (demoHash demoSignedTx, none) ∧
      demoHash demoSignedTx = 25210 ∧ demoTx.nonce = 5 ∧
      newCalls world0 (Send goodBackend demoSigner demoHash openRequest 9 (some 4) world0).2
        = [Invocation.PendingNonceAt 9,
           Invocation.EstimateGas { From := 9, To := some 77, Data := [1, 2, 3] },
           Invocation.SuggestGasPrice, Invocation.SignTx demoTx (some 4),
           Invocation.SendTransaction demoSignedTx]) ∧
    ((Send failingSendBackend demoSigner demoHash openRequest 9 (some 4) world0).1
        = (zeroHash, some (Error.ext 6)) ∧
      (Send failingSendBackend demoSigner demoHash openRequest 9 (some 4) world0).2.state
        = 5) ∧
    ((Send goodBackend demoSigner demoHash openRequest 9 none world0).1
        = (zeroHash, some (Error.ext 3)) ∧
      ∀ t, Invocation.SendTransaction t ∉
        newCalls world0 (Send goodBackend demoSigner demoHash openRequest 9 none world0).2) :=
  ⟨⟨((((Send_steps goodBackend demoSigner demoHash openRequest 9 (some 4) world0).2.1
        5 (callPendingNonceAt goodBackend 9 world0).2 rfl).2
        demoTx (prepareTransaction goodBackend openRequest 9 5
          (callPendingNonceAt goodBackend 9 world0).2).2 rfl).2.2
        demoSignedTx (callSignTx demoSigner demoTx (some 4)
          (prepareTransaction goodBackend openRequest 9 5
            (callPendingNonceAt goodBackend 9 world0).2).2).2 rfl).2.2 _ rfl,
     by decide,
     (((Send_steps goodBackend demoSigner demoHash openRequest 9 (some 4) world0).2.1
        5 (callPendingNonceAt goodBackend 9 world0).2 rfl).2
        demoTx (prepareTransaction goodBackend openRequest 9 5
          (callPendingNonceAt goodBackend 9 world0).2).2 rfl).1,
     (((((Send_steps goodBackend demoSigner demoHash openRequest 9 (some 4) world0).2.1
        5 (callPendingNonceAt goodBackend 9 world0).2 rfl).2
        demoTx (prepareTransaction goodBackend openRequest 9 5
          (callPendingNonceAt goodBackend 9 world0).2).2 rfl).2.2
        demoSignedTx (callSignTx demoSigner demoTx (some 4)
          (prepareTransaction goodBackend openRequest 9 5
            (callPendingNonceAt goodBackend 9 world0).2).2).2 rfl).1 none _ rfl).2.2⟩,
   ⟨((((Send_steps failingSendBackend demoSigner demoHash openRequest 9 (some 4) world0).2.1
        5 (callPendingNonceAt failingSendBackend 9 world0).2 rfl).2
        demoTx (prepareTransaction failingSendBackend openRequest 9 5
          (callPendingNonceAt failingSendBackend 9 world0).2).2 rfl).2.2
        demoSignedTx (callSignTx demoSigner demoTx (some 4)
          (prepareTransaction failingSendBackend openRequest 9 5
            (callPendingNonceAt failingSendBackend 9 world0).2).2).2 rfl).2.1
        (Error.ext 6) _ rfl,
    rfl⟩,
   ⟨((((Send_steps goodBackend demoSigner demoHash openRequest 9 none world0).2.1
        5 (callPendingNonceAt goodBackend 9 world0).2 rfl).2
        demoTx (prepareTransaction goodBackend openRequest 9 5
          (callPendingNonceAt goodBackend 9 world0).2).2 rfl).2.1
        (Error.ext 3) _ rfl).1,
    ((((Send_steps goodBackend demoSigner demoHash openRequest 9 none world0).2.1
        5 (callPendingNonceAt goodBackend 9 world0).2 rfl).2
        demoTx (prepareTransaction goodBackend openRequest 9 5
          (callPendingNonceAt goodBackend 9 world0).2).2 rfl).2.1
        (Error.ext 3) _ rfl).2.2.2.2⟩⟩

/-! ## Deployment -/

theorem Deploy_of_pack_error {σ : Type} (pack : String → List AbiValue → Except LibError Bytes)
    (backend : Backend σ) (signer : Signer σ) (hashOf : Transaction → Hash)
    (issuer : Address) (duration : Int) (nonce : Hash) (chainID : BigInt) (w : World σ)
    (err : LibError)
    (hp : pack "deploySimpleSwap"
      [AbiValue.address issuer, AbiValue.bigInt duration, AbiValue.hash nonce]
        = Except.error err) :
    Deploy pack backend signer hashOf issuer duration nonce chainID w
      = (Outcome.returned (zeroHash, some (Error.lib err)), w) := by
  simp [Deploy, hp]

theorem Deploy_of_price_error {σ : Type} (pack : String → List AbiValue → Except LibError Bytes)
    (backend : Backend σ) (signer : Signer σ) (hashOf : Transaction → Hash)
    (issuer : Address) (duration : Int) (nonce : Hash) (chainID : BigInt) (w : World σ)
    (callData : Bytes) (err : Error)
    (hp : pack "deploySimpleSwap"
      [AbiValue.address issuer, AbiValue.bigInt duration, AbiValue.hash nonce]
        = Except.ok callData)
    (hs : (backend.SuggestGasPrice w.state).1 = Except.error err) :
    (Deploy pack backend signer hashOf issuer duration nonce chainID w).1
      = Outcome.exited 1 err := by
  simp [Deploy, hp, callSuggestGasPrice, hs]

theorem PreWithdraw_of_price_error {σ : Type}
    (pack : String → List AbiValue → Except LibError Bytes)
    (backend : Backend σ) (signer : Signer σ) (hashOf : Transaction → Hash)
    (fromaddress swapAdd : Address) (chainID : BigInt) (w : World σ)
    (callData : Bytes) (err : Error)
    (hp : pack "preWithdraw" [] = Except.ok callData)
    (hs : (backend.SuggestGasPrice w.state).1 = Except.error err) :
    (PreWithdraw pack backend signer hashOf fromaddress swapAdd chainID w).1
      = Outcome.returned (zeroHash, some err) := by
  simp [PreWithdraw, hp, callSuggestGasPrice, hs]

theorem Deploy_of_Send_error {σ : Type} (pack : String → List AbiValue → Except LibError Bytes)
    (backend : Backend σ) (signer : Signer σ) (hashOf : Transaction → Hash)
    (issuer : Address) (duration : Int) (nonce : Hash) (chainID : BigInt) (w w1 w2 : World σ)
    (callData : Bytes) (gasPrice : BigInt) (h : Hash) (err : Error)
    (hp : pack "deploySimpleSwap"
      [AbiValue.address issuer, AbiValue.bigInt duration, AbiValue.hash nonce]
        = Except.ok callData)
    (hs : callSuggestGasPrice backend w = (Except.ok gasPrice, w1))
    (hsend : Send backend signer hashOf
      { To := some factoryAdd, Data := callData, GasPrice := gasPrice, GasLimit := 175000,
        Value := some 0, Description := "chequebook deployment" } issuer chainID w1
        = ((h, some err), w2)) :
    Deploy pack backend signer hashOf issuer duration nonce chainID w
      = (Outcome.returned (zeroHash, some err), w2) := by
  simp [Deploy, hp, hs, hsend]

/-- C6: on a backend whose `SuggestGasPrice` fails with `ext 8`, `Deploy` does not
return that error to its caller: the process exits with status `1` after logging it,
and the only call made is `SuggestGasPrice`.  On the same backend `PreWithdraw`, which
has the same shape, returns the zero hash and the error. -/
theorem Deploy_exits_on_price_error :
    (Deploy demoPack failingPriceBackend demoSigner demoHash 9 3600 1 (some 4) world0).1
      = Outcome.exited 1 (Error.ext 8) ∧
    (Deploy demoPack failingPriceBackend demoSigner demoHash 9 3600 1 (some 4) world0).1
      ≠ Outcome.returned (zeroHash, some (Error.ext 8)) ∧
    (Deploy demoPack failingPriceBackend demoSigner demoHash 9 3600 1 (some 4) world0).2.trace
      = [Invocation.SuggestGasPrice] ∧
    (PreWithdraw demoPack failingPriceBackend demoSigner demoHash 9 77 (some 4) world0).1
      = Outcome.returned (zeroHash, some (Error.ext 8)) :=
  ⟨rfl, by decide, rfl, rfl⟩

end ConAbi
